import Mathlib

/-!
Verification development for the roead AAMP text codec
(`src/aamp/text.rs`): the typed parameter data model, the NameTable
heuristic name-recovery engine, and the bidirectional YAML-tree codec.

Modelling conventions:
* Machine integers are `Nat` (for `u8`/`u32`/`u64`/`usize`) or `Int`
  (for `i32`/`i64`), with wrapping casts written out as `% 2^32`.
* The YAML text layer (the external `ryml` tree parser/emitter) is out of
  scope per the specification; the codec is modelled at the level of the
  text tree (`YNode`): map/sequence/scalar nodes with optional type tags,
  key text and quoting flags.  Emitting a tree to text and re-parsing it
  is the identity on this representation.
* Floating-point values are out of scope for a shallow embedding; the
  external numeric lexer's float handling is modelled by representing an
  `f32`/`f64` value as its canonical numeric text, with the lexer's
  parse/format pair acting as the identity on such text.
* The process-wide default name table has interior mutability in the
  source; its state is threaded explicitly through the encoding
  functions, so one encoding call maps a table state to a result plus an
  updated table state.
-/

/-! ## CRC32 hash (`hash_name`)

Modelled from the spec: the crate's hash function (declared in the aamp
module outside `text.rs`) is "a fixed, publicly documented 32-bit hash
(CRC-32 family) mapping a name string to its archive key".  This is the
standard CRC-32 (polynomial 0xEDB88320, reflected, initial and final
XOR 0xFFFFFFFF) over the UTF-8 bytes of the string.  The model
reproduces the repository's own test vectors:
`hash_name "AI" = 2814088591` and `hash_name "AI_35" = 2157271501`. -/

def crc32Round (crc : Nat) : Nat → Nat
  | 0 => crc
  | k + 1 =>
    let crc' := if crc % 2 = 1 then (crc / 2) ^^^ 0xEDB88320 else crc / 2
    crc32Round crc' k

def crc32Byte (crc b : Nat) : Nat := crc32Round (crc ^^^ b) 8

/-- UTF-8 encoding of a single character, as its list of bytes. -/
def utf8Bytes (c : Char) : List Nat :=
  let n := c.toNat
  if n < 0x80 then [n]
  else if n < 0x800 then [0xC0 + n / 64, 0x80 + n % 64]
  else if n < 0x10000 then [0xE0 + n / 4096, 0x80 + n / 64 % 64, 0x80 + n % 64]
  else [0xF0 + n / 262144, 0x80 + n / 4096 % 64, 0x80 + n / 64 % 64, 0x80 + n % 64]

def hash_name (s : String) : Nat :=
  ((s.data.flatMap utf8Bytes).foldl crc32Byte 0xFFFFFFFF) ^^^ 0xFFFFFFFF

/-! ## Numeric text (the external `lexical` number formatter/parser)

The spec treats the numeric string lexer as an external collaborator
supporting decimal and 0x-hexadecimal integer forms.  Digits are
produced most-significant first; hexadecimal output uses upper-case
digits. -/

/-- Digit character for a value below 16. -/
def digitChar (n : Nat) : Char :=
  if n < 10 then Char.ofNat (48 + n) else Char.ofNat (55 + n)

/-- Digit list of `n` in base `b2 + 2`, most significant first (the base
offset and the fuel argument keep the recursion structural; only bases
10 and 16 are used, and `n` itself always suffices as fuel). -/
def repAuxGo (b2 : Nat) : Nat → Nat → List Char
  | 0, n => [digitChar n]
  | fuel + 1, n =>
    if n < b2 + 2 then [digitChar n]
    else repAuxGo b2 fuel (n / (b2 + 2)) ++ [digitChar (n % (b2 + 2))]

def repAux (b2 n : Nat) : List Char := repAuxGo b2 n n

def rep10 (n : Nat) : List Char := repAux 8 n

def rep16 (n : Nat) : List Char := repAux 14 n

/-- Decimal text of an unsigned integer (`lexical::to_string`). -/
def decStr (n : Nat) : String := String.mk (rep10 n)

/-- Decimal text of a signed integer (`lexical::to_string`). -/
def intStr (i : Int) : String :=
  if i < 0 then String.mk ('-' :: rep10 i.natAbs) else String.mk (rep10 i.natAbs)

/-- Hexadecimal text with a `0x` marker (the crate's `format_hex!` macro,
modelled from the spec: "a tagged hexadecimal literal"). -/
def hexStr (n : Nat) : String := String.mk ('0' :: 'x' :: rep16 n)

/-- Zero-padded decimal text of width `w` (Rust `{:02}` / `{:03}` / `{:04}`). -/
def padDec (w n : Nat) : String :=
  let l := rep10 n
  String.mk (List.replicate (w - l.length) '0' ++ l)

/-- Value of a digit character in any base up to 16 (both letter cases). -/
def charVal (c : Char) : Option Nat :=
  if '0' ≤ c ∧ c ≤ '9' then some (c.toNat - 48)
  else if 'a' ≤ c ∧ c ≤ 'f' then some (c.toNat - 87)
  else if 'A' ≤ c ∧ c ≤ 'F' then some (c.toNat - 55)
  else none

def digitValB (b : Nat) (c : Char) : Option Nat :=
  (charVal c).bind fun d => if d < b then some d else none

def parseBaseGo (b acc : Nat) : List Char → Option Nat
  | [] => some acc
  | c :: cs =>
    match digitValB b c with
    | some d => parseBaseGo b (acc * b + d) cs
    | none => none

/-- Complete-match base-`b` parse of a digit string; fails on empty input
or any non-digit character, like the external lexer. -/
def parseBaseNat (b : Nat) (l : List Char) : Option Nat :=
  match l with
  | [] => none
  | l => parseBaseGo b 0 l

/-- Decimal parse bounded by `bound` (the lexer rejects overflow for the
target integer width). -/
def decNatIn (l : List Char) (bound : Nat) : Option Nat :=
  (parseBaseNat 10 l).bind fun v => if v < bound then some v else none

def hexNatIn (l : List Char) (bound : Nat) : Option Nat :=
  (parseBaseNat 16 l).bind fun v => if v < bound then some v else none

/-- Decimal `u64` parse (`lexical::parse::<u64, &str>`). -/
def parseDecU64 (s : String) : Option Nat := decNatIn s.data (2 ^ 64)

/-- Signed decimal parse within the `i64` range. -/
def parseI64dec (s : String) : Option Int :=
  if s.data.head? = some '-' then
    (parseBaseNat 10 s.data.tail).bind fun v =>
      if v ≤ 2 ^ 63 then some (-(v : Int)) else none
  else
    (parseBaseNat 10 s.data).bind fun v =>
      if v < 2 ^ 63 then some (v : Int) else none

/-- Signed hexadecimal parse within the `i64` range. -/
def parseI64hex (l : List Char) : Option Int :=
  if l.head? = some '-' then
    (parseBaseNat 16 l.tail).bind fun v =>
      if v ≤ 2 ^ 63 then some (-(v : Int)) else none
  else
    (parseBaseNat 16 l).bind fun v =>
      if v < 2 ^ 63 then some (v : Int) else none

/-- Strip one leading `0x` (the spec's "strip an optional 0x prefix"). -/
def strip0xOnce : List Char → List Char
  | '0' :: 'x' :: rest => rest
  | l => l

/-- Strip every leading `0x` (Rust `trim_start_matches("0x")`, used by
`parse_num` in the source). -/
def strip0xAll : List Char → List Char
  | '0' :: 'x' :: rest => strip0xAll rest
  | [c] => [c]
  | [] => []
  | c :: c' :: rest => c :: c' :: rest

/-- List-level substring split (Rust `str::split` / `String::splitOn`);
Lean's own `String.splitOn` is defined by well-founded recursion on byte
positions and does not reduce inside the kernel, so the model works on
character lists with explicit fuel. -/
def splitOnGo (sep : List Char) : Nat → List Char → List Char → List (List Char)
  | _, acc, [] => [acc.reverse]
  | 0, acc, rest => [acc.reverse ++ rest]
  | fuel + 1, acc, c :: cs =>
    if sep.isPrefixOf (c :: cs) then
      acc.reverse :: splitOnGo sep fuel [] (cs.drop (sep.length - 1))
    else splitOnGo sep fuel (c :: acc) cs

def splitOnL (sep l : List Char) : List (List Char) :=
  if sep.isEmpty then [l] else splitOnGo sep l.length [] l

/-- Rust `str::ends_with` (character-level; all suffixes used are ASCII). -/
def strEndsWith (s suf : String) : Bool := suf.data.isSuffixOf s.data

/-- Rust `str::strip_suffix` result: drop the last `n` characters. -/
def strDropRight (s : String) (n : Nat) : String :=
  String.mk (s.data.take (s.data.length - n))

/-- Numeric shape of a float literal: an optional sign, then digits with
at most one decimal point.  Modelled from the spec: the external lexer's
float lexing is out of scope; float values are carried as their
canonical numeric text, which has this shape. -/
def digitsShape (l : List Char) : Bool := !l.isEmpty && l.all Char.isDigit

def numericShapeCore (l : List Char) : Bool :=
  match splitOnL ['.'] l with
  | [a] => digitsShape a
  | [a, b] => digitsShape a && digitsShape b
  | _ => false

def numericShape (l : List Char) : Bool :=
  match l with
  | [] => numericShapeCore []
  | c :: r => if c = '-' then numericShapeCore r else numericShapeCore (c :: r)

/-! ## NameTable

From `NameTable` in the source: `names` is the hash-to-name cache (an
association list models the hash map; lookups take the first binding)
and `numbered_names` is the fixed list of numbered-name templates.  The
built-in BOTW dictionary is data, not code; tables here start from an
arbitrary seeded state. -/

structure NameTable where
  names : List (Nat × String)
  numbered_names : List String
deriving DecidableEq, Repr

/-- Entry API `entry(hash).or_insert(name)`: first writer wins. -/
def insertIfAbsent (l : List (Nat × String)) (h : Nat) (n : String) :
    List (Nat × String) :=
  if (l.lookup h).isSome then l else l ++ [(h, n)]

/-- From `NameTable::add_name`. -/
def NameTable.add_name (t : NameTable) (name : String) : NameTable :=
  { t with names := insertIfAbsent t.names (hash_name name) name }

/-- From `NameTable::add_name_with_hash`. -/
def NameTable.add_name_with_hash (t : NameTable) (name : String) (h : Nat) :
    NameTable :=
  { t with names := insertIfAbsent t.names h name }

/-- From `NameTable::add_name_str` (same behavior as `add_name` up to the
borrow type of the argument). -/
def NameTable.add_name_str (t : NameTable) (name : String) : NameTable :=
  { t with names := insertIfAbsent t.names (hash_name name) name }

/-- From `ChildFormatIterator`: the six candidate strings for a given
name stem and index, in iterator order
`{p}{i}`, `{p}{i:02}`, `{p}{i:03}`, `{p}_{i}`, `{p}_{i:02}`, `{p}_{i:03}`. -/
def childFormats (pre : String) (pos : Nat) : List String :=
  [pre ++ decStr pos,
   pre ++ padDec 2 pos,
   pre ++ padDec 3 pos,
   pre ++ "_" ++ decStr pos,
   pre ++ "_" ++ padDec 2 pos,
   pre ++ "_" ++ padDec 3 pos]

/-- From the inner `test_names` helper of `NameTable::get_name`: the loop
`for i in index..(index + 1)` visits the single value `index`, and the
first candidate whose hash matches is accepted. -/
def test_names (hash index : Nat) (pre : String) : Option String :=
  ((List.range' index 1).flatMap fun i => childFormats pre i).find?
    fun c => hash_name c == hash

/-- From the plural-stripping fallback inside `get_name`: suffixes are
tried in the order `s`, `es`, `List`, each only when present. -/
def singularGo (hash index : Nat) (pn : String) : List String → Option String
  | [] => none
  | suf :: rest =>
    (if strEndsWith pn suf then
      test_names hash index (strDropRight pn suf.length)
     else none).or
      (singularGo hash index pn rest)

def singularGuess (hash index : Nat) (pn : String) : Option String :=
  singularGo hash index pn ["s", "es", "List"]

/-- From `format_number`: the recognized printf-style numeric formats.
The source marks any other format unreachable; the model returns the
plain decimal in that case. -/
def format_number (fmt : String) (pos : Nat) : String :=
  if fmt = "%d" ∨ fmt = "%u" then decStr pos
  else if fmt = "%02d" ∨ fmt = "%02u" then padDec 2 pos
  else if fmt = "%03d" then padDec 3 pos
  else if fmt = "%04d" then padDec 4 pos
  else decStr pos

/-- From `format_numbered_name`: find the first recognized format
occurring in the template, split the template on it and keep the first
two pieces (Rust calls `split.next()` twice).  The source marks a
template without any recognized format unreachable; the model returns
the template unchanged. -/
def fmtNumberedGo (name : String) (pos : Nat) : List String → String
  | [] => name
  | fmt :: rest =>
    match splitOnL fmt.data name.data with
    | p0 :: p1 :: _ => String.mk p0 ++ format_number fmt pos ++ String.mk p1
    | _ => fmtNumberedGo name pos rest

def format_numbered_name (name : String) (pos : Nat) : String :=
  fmtNumberedGo name pos ["%d", "%02d", "%03d", "%04d", "%u", "%02u"]

/-- From the last-resort loop of `get_name`: for each template, indices
`0` to `index + 1` inclusive are substituted; the first hash match wins. -/
def numberedGuess (templates : List String) (hash index : Nat) :
    Option String :=
  match templates with
  | [] => none
  | f :: rest =>
    (((List.range (index + 2)).map (format_numbered_name f)).find?
        fun n => hash_name n == hash).or
      (numberedGuess rest hash index)

/-- From the `or_else` chain inside `get_name`: the parent's own name,
then "Children", then "Child", then the plural-stripping fallback. -/
def prefixGuess (hash index : Nat) (pn : String) : Option String :=
  (test_names hash index pn).or
    ((test_names hash index "Children").or
      ((test_names hash index "Child").or (singularGuess hash index pn)))

/-- From `NameTable::get_name`.  The source mutates the shared table
through a write lock; the model returns the updated table alongside the
optional name.  Cache hits return immediately; a successful guess
(whether from the parent-prefix chain or from a numbered-name template)
is inserted into the vacant entry for `hash` before being returned. -/
def NameTable.get_name (t : NameTable) (hash index parent_hash : Nat) :
    Option String × NameTable :=
  match t.names.lookup hash with
  | some n => (some n, t)
  | none =>
    match
      (match t.names.lookup parent_hash with
       | none => none
       | some pn => prefixGuess hash index pn) with
    | some n => (some n, { t with names := t.names ++ [(hash, n)] })
    | none =>
      match numberedGuess t.numbered_names hash index with
      | some n => (some n, { t with names := t.names ++ [(hash, n)] })
      | none => (none, t)

/-! ### Specification-side candidate enumerations

These two definitions follow the spec's words (§4.2 steps 3 and 4), to
be compared with the source-modelled `get_name`. -/

/-- Candidate names per the spec: prefixes in the fixed order parent
name, "Children", "Child", then each singularized parent name obtained
by stripping a trailing "s", "es" or "List" (in that order, when
present); for each stem the six patterns `{p}{i}`, `{p}{i:02}`,
`{p}{i:03}`, `{p}_{i}`, `{p}_{i:02}`, `{p}_{i:03}` with the single index
value `i = index`. -/
def specPrefixCandidates (pn : String) (index : Nat) : List String :=
  ([pn, "Children", "Child"] ++
      (["s", "es", "List"].filterMap fun suf =>
        if strEndsWith pn suf then some (strDropRight pn suf.length) else none)
    ).flatMap fun stem =>
      [stem ++ decStr index,
       stem ++ padDec 2 index,
       stem ++ padDec 3 index,
       stem ++ "_" ++ decStr index,
       stem ++ "_" ++ padDec 2 index,
       stem ++ "_" ++ padDec 3 index]

/-- Candidate names per the spec's last-resort step: each numbered-name
template with substituted index values from 0 up to and including
`index + 1`, in template-major order. -/
def specNumberedCandidates (templates : List String) (index : Nat) :
    List String :=
  templates.flatMap fun f =>
    (List.range (index + 2)).map (format_numbered_name f)

/-! ## Error, Scalar, tag types

From the crate's `Error` enum (only the variants this module produces):
`InvalidData` carries the source's message text; `External` stands for
errors propagated from the collaborating ryml / lexical libraries. -/

inductive Error where
  | InvalidData (msg : String)
  | External (msg : String)
deriving DecidableEq, Repr

/-- Modelled from the spec: the tag-based scalar type vocabulary of the
crate's yaml module (outside `text.rs`). -/
inductive TagBasedType where
  | Bool
  | Int
  | Float
  | Str
  | Null
deriving DecidableEq, Repr

/-- Modelled from the spec: the yaml module's `Scalar` value, produced
by `parse_scalar`.  Rust's `Int` is an `i64` and `Float` an `f64`; the
float payload is carried as its canonical numeric text. -/
inductive Scalar where
  | String (s : String)
  | Int (i : Int)
  | Float (text : String)
  | Bool (b : Bool)
  | Null
deriving DecidableEq, Repr

/-- From `recognize_tag` in the source. -/
def recognize_tag (tag : String) : Option TagBasedType :=
  if tag = "!str32" ∨ tag = "!str64" ∨ tag = "!str256" then some .Str
  else if tag = "!u" then some .Int
  else none

/-- Modelled from the spec: `get_tag_based_type` of the yaml module maps
standard YAML core-schema tags to their scalar type; AAMP tags and the
empty tag carry no type information here. -/
def get_tag_based_type (tag : String) : Option TagBasedType :=
  if tag = "!!str" then some .Str
  else if tag = "!!int" then some .Int
  else if tag = "!!float" then some .Float
  else if tag = "!!bool" then some .Bool
  else if tag = "!!null" then some .Null
  else none

/-- Integer scalar parsing per the spec: "attempt decimal parse first;
on failure, strip an optional 0x prefix and parse as hexadecimal", at
64-bit signed width. -/
def parseIntDecThenHex (val : String) : Option Int :=
  (parseI64dec val).or (parseI64hex (strip0xOnce val.data))

/-- Modelled from the spec: `parse_scalar` of the yaml module.  A tagged
scalar parses according to its tag type; an untagged scalar is
classified by its own literal form (quoted string, null form, boolean
literal, integer literal, float literal, then plain string). -/
def parse_scalar (tagType : Option TagBasedType) (val : String)
    (quoted : Bool) : Except Error Scalar :=
  match tagType with
  | some .Str => .ok (.String val)
  | some .Bool => .ok (.Bool (val == "true"))
  | some .Null => .ok .Null
  | some .Int =>
    match parseIntDecThenHex val with
    | some i => .ok (.Int i)
    | none => .error (.External "lexical: invalid integer")
  | some .Float =>
    if numericShape val.data then .ok (.Float val)
    else .error (.External "lexical: invalid float")
  | none =>
    if quoted then .ok (.String val)
    else if val == "null" ∨ val == "~" ∨ val == "" then .ok .Null
    else if val == "true" then .ok (.Bool true)
    else if val == "false" then .ok (.Bool false)
    else
      match parseIntDecThenHex val with
      | some i => .ok (.Int i)
      | none =>
        if numericShape val.data then .ok (.Float val)
        else .ok (.String val)

/-- Rust `i as u32` on an `i64`: wrap modulo `2^32`. -/
def wrapU32 (i : Int) : Nat := (i % (2 ^ 32 : Int)).toNat

/-- Rust `i as i32` on an `i64`: wrap modulo `2^32` into
`[-2^31, 2^31)`. -/
def wrapI32 (i : Int) : Int :=
  let m := i % (2 ^ 32 : Int)
  if m < 2 ^ 31 then m else m - 2 ^ 32

/-! ## The typed parameter data model

Modelled from the spec (the `Parameter` union and its record types are
declared in the aamp module outside `text.rs`): a closed union of leaf
kinds; vectors, quaternions and colors hold 2/3/4 float fields; a curve
holds two leading 32-bit unsigned fields and 30 floats; buffers hold
sequences of their numeric type.  Float values are carried as canonical
numeric text (see the module conventions above). -/

structure Vector2f where
  x : String
  y : String
deriving DecidableEq, Repr

structure Vector3f where
  x : String
  y : String
  z : String
deriving DecidableEq, Repr

structure Vector4f where
  x : String
  y : String
  z : String
  t : String
deriving DecidableEq, Repr

structure Quat where
  a : String
  b : String
  c : String
  d : String
deriving DecidableEq, Repr

structure Color where
  r : String
  g : String
  b : String
  a : String
deriving DecidableEq, Repr

structure Curve where
  a : Nat
  b : Nat
  floats : List String
deriving DecidableEq, Repr

inductive Parameter where
  | Bool (b : Bool)
  | F32 (v : String)
  | Int (i : Int)
  | Vec2 (v : Vector2f)
  | Vec3 (v : Vector3f)
  | Vec4 (v : Vector4f)
  | Color (c : Color)
  | String32 (s : String)
  | String64 (s : String)
  | Curve1 (c1 : Curve)
  | Curve2 (c1 c2 : Curve)
  | Curve3 (c1 c2 c3 : Curve)
  | Curve4 (c1 c2 c3 c4 : Curve)
  | BufferInt (l : List Int)
  | BufferF32 (l : List String)
  | String256 (s : String)
  | Quat (q : Quat)
  | U32 (u : Nat)
  | BufferU32 (l : List Nat)
  | BufferBinary (l : List Nat)
  | StringRef (s : String)
deriving DecidableEq, Repr

/-- From `scalar_to_value` in the source: dispatch a parsed scalar and
its tag to the matching `Parameter` leaf; the casts `i as u32` and
`i as i32` wrap; a null scalar is a data error. -/
def scalar_to_value (tag : String) (scalar : Scalar) :
    Except Error Parameter :=
  match scalar with
  | .String s =>
    if tag = "!str32" then .ok (.String32 s)
    else if tag = "!str64" then .ok (.String64 s)
    else if tag = "!str256" then .ok (.String256 s)
    else .ok (.StringRef s)
  | .Int i =>
    if tag = "!u" then .ok (.U32 (wrapU32 i)) else .ok (.Int (wrapI32 i))
  | .Float f => .ok (.F32 f)
  | .Bool b => .ok (.Bool b)
  | .Null => .error (.InvalidData "AAMP does not support null values")

/-- From `ParameterObject`: an ordered mapping from name hash to
parameter (an index map in the crate; modelled as an ordered association
list). -/
structure ParameterObject where
  entries : List (Nat × Parameter)
deriving DecidableEq, Repr

/-- From `ParameterList`: ordered mappings of child objects and child
lists; the `lists` component is the recursive edge. -/
inductive ParameterList where
  | mk (objects : List (Nat × ParameterObject))
       (lists : List (Nat × ParameterList))
deriving Repr

def ParameterList.objects : ParameterList → List (Nat × ParameterObject)
  | .mk objs _ => objs

def ParameterList.lists : ParameterList → List (Nat × ParameterList)
  | .mk _ lsts => lsts

/-- From `ParameterIO`: format version, data type string and the root
list. -/
structure ParameterIO where
  version : Nat
  data_type : String
  param_root : ParameterList
deriving Repr

/-! ## The text tree

Modelled from the spec: the external ryml text tree, reduced to the
node-walking contract the codec consumes (map / sequence / scalar nodes
with optional type tag, per-node key text, key quoting and value
quoting).  Key text is optional because a freshly appended map child has
no key until `set_key` is called. -/

inductive YNode where
  | scalar (key : Option String) (keyDquo : Bool) (tag : Option String)
      (quoted : Bool) (val : String)
  | seq (key : Option String) (keyDquo : Bool) (tag : Option String)
      (children : List YNode)
  | map (key : Option String) (keyDquo : Bool) (tag : Option String)
      (children : List YNode)
deriving Repr

def YNode.keyText : YNode → Option String
  | .scalar k _ _ _ _ => k
  | .seq k _ _ _ => k
  | .map k _ _ _ => k

/-- ryml `set_key`. -/
def YNode.set_key (k : String) : YNode → YNode
  | .scalar _ kd t q v => .scalar (some k) kd t q v
  | .seq _ kd t c => .seq (some k) kd t c
  | .map _ kd t c => .map (some k) kd t c

/-- ryml `set_type_flags(ty | WipKeyDquo)`: force double quotes on the
key. -/
def YNode.setKeyDquo : YNode → YNode
  | .scalar k _ t q v => .scalar k true t q v
  | .seq k _ t c => .seq k true t c
  | .map k _ t c => .map k true t c

/-- ryml `node.val()`: the scalar text; an error on container nodes. -/
def YNode.valE : YNode → Except Error String
  | .scalar _ _ _ _ v => .ok v
  | _ => .error (.External "ryml: node has no scalar value")

/-- ryml `node.key()`: an error when no key was ever set. -/
def YNode.keyE : YNode → Except Error String
  | n =>
    match n.keyText with
    | some k => .ok k
    | none => .error (.External "ryml: node has no key")

/-- ryml `node.get(key)`: find the map child with the given key text. -/
def YNode.getChild (node : YNode) (key : String) : Except Error YNode :=
  match node with
  | .map _ _ _ children =>
    match children.find? (fun c => c.keyText == some key) with
    | some c => .ok c
    | none => .error (.External "ryml: key not found")
  | _ => .error (.External "ryml: node is not a map")

mutual
def ySize : YNode → Nat
  | .scalar _ _ _ _ _ => 1
  | .seq _ _ _ children => 1 + ySizeL children
  | .map _ _ _ children => 1 + ySizeL children

def ySizeL : List YNode → Nat
  | [] => 1
  | c :: cs => 1 + ySize c + ySizeL cs
end

/-! ## Encoding (typed graph to text tree) -/

/-- Modelled from the spec: `string_needs_quotes` of the yaml module —
an unbounded string is quoted when its content would otherwise be
misread as a number, tag, boolean/null keyword or empty scalar. -/
def string_needs_quotes (s : String) : Bool :=
  s == "" || s == "true" || s == "false" || s == "null" || s == "~" ||
    (match s.data with
     | '!' :: _ => true
     | _ => false) ||
    numericShape s.data || (parseIntDecThenHex s).isSome

/-- From `fill_node_from_struct!`: a flow sequence of the record's
fields (floats carried as their canonical text), tagged. -/
def fillFromFields (tag : String) (fields : List String) : YNode :=
  .seq none false (some tag) (fields.map fun f => .scalar none false none false f)

/-- From `write_curves`: one flat flow sequence of `a`, `b` and the 30
floats of every curve in order, tagged `!curve`. -/
def write_curves (curves : List Curve) : YNode :=
  .seq none false (some "!curve")
    (curves.flatMap fun c =>
      .scalar none false none false (decStr c.a) ::
        .scalar none false none false (decStr c.b) ::
          c.floats.map fun f => .scalar none false none false f)

/-- From `write_buf`: a flow sequence of pre-formatted element texts
(decimal or hexadecimal per the caller's `use_hex`), tagged. -/
def write_buf (texts : List String) (tag : String) : YNode :=
  .seq none false (some tag) (texts.map fun v => .scalar none false none false v)

/-- From `write_parameter` in the source, case by case. -/
def write_parameter : Parameter → YNode
  | .Bool b => .scalar none false none false (if b then "true" else "false")
  | .F32 f => .scalar none false none false f
  | .Int i => .scalar none false none false (intStr i)
  | .Vec2 v => fillFromFields "!vec2" [v.x, v.y]
  | .Vec3 v => fillFromFields "!vec3" [v.x, v.y, v.z]
  | .Vec4 v => fillFromFields "!vec4" [v.x, v.y, v.z, v.t]
  | .Color c => fillFromFields "!color" [c.r, c.g, c.b, c.a]
  | .String32 s => .scalar none false (some "!str32") false s
  | .String64 s => .scalar none false (some "!str64") false s
  | .Curve1 c1 => write_curves [c1]
  | .Curve2 c1 c2 => write_curves [c1, c2]
  | .Curve3 c1 c2 c3 => write_curves [c1, c2, c3]
  | .Curve4 c1 c2 c3 c4 => write_curves [c1, c2, c3, c4]
  | .BufferInt l => write_buf (l.map intStr) "!buffer_int"
  | .BufferF32 l => write_buf l "!buffer_f32"
  | .String256 s => .scalar none false (some "!str256") false s
  | .Quat q => fillFromFields "!quat" [q.a, q.b, q.c, q.d]
  | .U32 u => .scalar none false (some "!u") false (hexStr u)
  | .BufferU32 l => write_buf (l.map hexStr) "!buffer_u32"
  | .BufferBinary l => write_buf (l.map hexStr) "!buffer_binary"
  | .StringRef s => .scalar none false none (string_needs_quotes s) s

/-- From the key-writing loop of `write_parameter_object`: a recovered
name is double-quoted when its text parses as a `u64` and set as the
key; otherwise the decimal hash text is set as the key. -/
def writeObjEntries : List (Nat × Parameter) → Nat → Nat → NameTable →
    List YNode × NameTable
  | [], _, _, t => ([], t)
  | (key, val) :: rest, parent_hash, i, t =>
    let (name?, t1) := t.get_name key i parent_hash
    let child := write_parameter val
    let child :=
      match name? with
      | some name =>
        (if (parseDecU64 name).isSome then child.setKeyDquo else child
          ).set_key name
      | none => child.set_key (decStr key)
    let (tail, t2) := writeObjEntries rest parent_hash (i + 1) t1
    (child :: tail, t2)

/-- From `write_parameter_object`. -/
def write_parameter_object (pobj : ParameterObject) (parent_hash : Nat)
    (t : NameTable) : YNode × NameTable :=
  let (children, t') := writeObjEntries pobj.entries parent_hash 0 t
  (.map none false (some "!obj") children, t')

/-- From the objects loop of `write_parameter_list`.  Unlike
`write_parameter_object`, the branch that recovers a name sets only the
key-double-quote flag and never calls `set_key`; only the fallback
branch sets the decimal hash text as the key. -/
def writeListObjEntries : List (Nat × ParameterObject) → Nat → Nat →
    NameTable → List YNode × NameTable
  | [], _, _, t => ([], t)
  | (key, val) :: rest, parent_hash, i, t =>
    let (name?, t1) := t.get_name key i parent_hash
    let (node, t2) := write_parameter_object val key t1
    let node :=
      match name? with
      | some name =>
        if (parseDecU64 name).isSome then node.setKeyDquo else node
      | none => node.set_key (decStr key)
    let (tail, t3) := writeListObjEntries rest parent_hash (i + 1) t2
    (node :: tail, t3)

mutual
/-- From `write_parameter_list`: a map with an "objects" child map and a
"lists" child map, tagged `!list`. -/
def write_parameter_list (plist : ParameterList) (parent_hash : Nat)
    (t : NameTable) : YNode × NameTable :=
  match plist with
  | .mk objs lsts =>
    let (objChildren, t1) := writeListObjEntries objs parent_hash 0 t
    let (lstChildren, t2) := writeListListEntries lsts parent_hash 0 t1
    (.map none false (some "!list")
      [.map (some "objects") false none objChildren,
       .map (some "lists") false none lstChildren], t2)

/-- From the lists loop of `write_parameter_list`; it shares the
missing-`set_key` behavior of the objects loop. -/
def writeListListEntries : List (Nat × ParameterList) → Nat → Nat →
    NameTable → List YNode × NameTable
  | [], _, _, t => ([], t)
  | (key, val) :: rest, parent_hash, i, t =>
    let (name?, t1) := t.get_name key i parent_hash
    let (node, t2) := write_parameter_list val key t1
    let node :=
      match name? with
      | some name =>
        if (parseDecU64 name).isSome then node.setKeyDquo else node
      | none => node.set_key (decStr key)
    let (tail, t3) := writeListListEntries rest parent_hash (i + 1) t2
    (node :: tail, t3)
end

/-- Modelled from the spec: the fixed sentinel key supplying the root's
name-recovery context (`ROOT_KEY`, declared in the aamp module outside
`text.rs`). -/
def ROOT_KEY : Nat := hash_name "param_root"

/-- From `write_parameter_io`: a map tagged `!io` holding the version
scalar, the data type scalar and the recursively encoded root list under
"param_root". -/
def write_parameter_io (pio : ParameterIO) (t : NameTable) :
    YNode × NameTable :=
  let (prNode, t') := write_parameter_list pio.param_root ROOT_KEY t
  (.map none false (some "!io")
    [.scalar (some "version") false none false (decStr pio.version),
     .scalar (some "type") false none false pio.data_type,
     prNode.set_key "param_root"], t')

/-! ## Decoding (text tree to typed graph) -/

/-- From `parse_num::<u32>`: decimal parse first, then hexadecimal after
stripping every leading `0x`; overflow for the target width fails. -/
def parseNumU32E (s : String) : Except Error Nat :=
  match decNatIn s.data (2 ^ 32) with
  | some v => .ok v
  | none =>
    match hexNatIn (strip0xAll s.data) (2 ^ 32) with
    | some v => .ok v
    | none => .error (.External "lexical: invalid number")

/-- From `parse_num::<u8>` (buffer bytes). -/
def parseNumU8E (s : String) : Except Error Nat :=
  match decNatIn s.data (2 ^ 8) with
  | some v => .ok v
  | none =>
    match hexNatIn (strip0xAll s.data) (2 ^ 8) with
    | some v => .ok v
    | none => .error (.External "lexical: invalid number")

/-- Signed decimal parse within the `i32` range. -/
def decIntI32 (l : List Char) : Option Int :=
  if l.head? = some '-' then
    (parseBaseNat 10 l.tail).bind fun v =>
      if v ≤ 2 ^ 31 then some (-(v : Int)) else none
  else
    (parseBaseNat 10 l).bind fun v =>
      if v < 2 ^ 31 then some (v : Int) else none

def hexIntI32 (l : List Char) : Option Int :=
  if l.head? = some '-' then
    (parseBaseNat 16 l.tail).bind fun v =>
      if v ≤ 2 ^ 31 then some (-(v : Int)) else none
  else
    (parseBaseNat 16 l).bind fun v =>
      if v < 2 ^ 31 then some (v : Int) else none

/-- From `parse_num::<i32>` (integer buffers). -/
def parseNumI32E (s : String) : Except Error Int :=
  match decIntI32 s.data with
  | some v => .ok v
  | none =>
    match hexIntI32 (strip0xAll s.data) with
    | some v => .ok v
    | none => .error (.External "lexical: invalid number")

/-- From `parse_num::<f32>` (floats carried as canonical numeric text;
the decimal attempt first, then the `0x`-stripped retry, mirrors the
generic `parse_num` structure). -/
def parseNumF32E (s : String) : Except Error String :=
  if numericShape s.data then .ok s
  else if numericShape (strip0xAll s.data) then
    .ok (String.mk (strip0xAll s.data))
  else .error (.External "lexical: invalid number")

/-- The `iter.next().ok_or(...)` step of the struct / curve readers. -/
def nextNode (l : List YNode) (msg : String) :
    Except Error (YNode × List YNode) :=
  match l with
  | [] => .error (.InvalidData msg)
  | c :: cs => .ok (c, cs)

/-- From `impl_from_node_for_struct!(Vector2f, x, y)`. -/
def readVector2f (children : List YNode) : Except Error Vector2f := do
  let (nx, r1) ← nextNode children "Vector2f missing fieldx"
  let x ← parseNumF32E (← nx.valE)
  let (ny, _) ← nextNode r1 "Vector2f missing fieldy"
  let y ← parseNumF32E (← ny.valE)
  .ok ⟨x, y⟩

/-- From `impl_from_node_for_struct!(Vector3f, x, y, z)`. -/
def readVector3f (children : List YNode) : Except Error Vector3f := do
  let (nx, r1) ← nextNode children "Vector3f missing fieldx"
  let x ← parseNumF32E (← nx.valE)
  let (ny, r2) ← nextNode r1 "Vector3f missing fieldy"
  let y ← parseNumF32E (← ny.valE)
  let (nz, _) ← nextNode r2 "Vector3f missing fieldz"
  let z ← parseNumF32E (← nz.valE)
  .ok ⟨x, y, z⟩

/-- From `impl_from_node_for_struct!(Vector4f, x, y, z, t)`. -/
def readVector4f (children : List YNode) : Except Error Vector4f := do
  let (nx, r1) ← nextNode children "Vector4f missing fieldx"
  let x ← parseNumF32E (← nx.valE)
  let (ny, r2) ← nextNode r1 "Vector4f missing fieldy"
  let y ← parseNumF32E (← ny.valE)
  let (nz, r3) ← nextNode r2 "Vector4f missing fieldz"
  let z ← parseNumF32E (← nz.valE)
  let (nt, _) ← nextNode r3 "Vector4f missing fieldt"
  let tv ← parseNumF32E (← nt.valE)
  .ok ⟨x, y, z, tv⟩

/-- From `impl_from_node_for_struct!(Quat, a, b, c, d)`. -/
def readQuat (children : List YNode) : Except Error Quat := do
  let (na, r1) ← nextNode children "Quat missing fielda"
  let a ← parseNumF32E (← na.valE)
  let (nb, r2) ← nextNode r1 "Quat missing fieldb"
  let b ← parseNumF32E (← nb.valE)
  let (nc, r3) ← nextNode r2 "Quat missing fieldc"
  let c ← parseNumF32E (← nc.valE)
  let (nd, _) ← nextNode r3 "Quat missing fieldd"
  let d ← parseNumF32E (← nd.valE)
  .ok ⟨a, b, c, d⟩

/-- From `impl_from_node_for_struct!(Color, r, g, b, a)`. -/
def readColor (children : List YNode) : Except Error Color := do
  let (nr, r1) ← nextNode children "Color missing fieldr"
  let r ← parseNumF32E (← nr.valE)
  let (ng, r2) ← nextNode r1 "Color missing fieldg"
  let g ← parseNumF32E (← ng.valE)
  let (nb, r3) ← nextNode r2 "Color missing fieldb"
  let b ← parseNumF32E (← nb.valE)
  let (na, _) ← nextNode r3 "Color missing fielda"
  let a ← parseNumF32E (← na.valE)
  .ok ⟨r, g, b, a⟩

/-- The 30-float payload loop of `read_curves`. -/
def readCurveFloats : Nat → List YNode →
    Except Error (List String × List YNode)
  | 0, rest => .ok ([], rest)
  | k + 1, l => do
    let (n, r) ← nextNode l "YAML curve missing a float"
    let f ← parseNumF32E (← n.valE)
    let (fs, rest) ← readCurveFloats k r
    .ok (f :: fs, rest)

/-- One iteration of the outer loop of `read_curves`: `a`, `b`, then the
30 floats (the source reuses the "YAML curve missing a" message for
`b`). -/
def read_one_curve (l : List YNode) : Except Error (Curve × List YNode) := do
  let (na, r1) ← nextNode l "YAML curve missing a"
  let a ← parseNumU32E (← na.valE)
  let (nb, r2) ← nextNode r1 "YAML curve missing a"
  let b ← parseNumU32E (← nb.valE)
  let (fs, rest) ← readCurveFloats 30 r2
  .ok (⟨a, b, fs⟩, rest)

/-- From `read_buf`: every child parsed with the element parser. -/
def read_buf {α : Type} (pf : String → Except Error α) :
    List YNode → Except Error (List α)
  | [] => .ok []
  | n :: rest => do
    let v ← pf (← n.valE)
    let tl ← read_buf pf rest
    .ok (v :: tl)

/-- From `parse_parameter` in the source.  The curve arm of the source
instantiates `read_curves::<N>` for N = 1, 2, 3, 4 after matching the
child count; the model unrolls that fixed-count loop over
`read_one_curve`. -/
def parse_parameter (node : YNode) : Except Error Parameter :=
  match node with
  | .seq _ _ tag children =>
    let tagS := tag.getD ""
    if tagS = "!vec2" then (readVector2f children).map .Vec2
    else if tagS = "!vec3" then (readVector3f children).map .Vec3
    else if tagS = "!vec4" then (readVector4f children).map .Vec4
    else if tagS = "!quat" then (readQuat children).map .Quat
    else if tagS = "!color" then (readColor children).map .Color
    else if tagS = "!curve" then
      if children.length = 32 then do
        let (c1, _) ← read_one_curve children
        .ok (.Curve1 c1)
      else if children.length = 64 then do
        let (c1, r1) ← read_one_curve children
        let (c2, _) ← read_one_curve r1
        .ok (.Curve2 c1 c2)
      else if children.length = 96 then do
        let (c1, r1) ← read_one_curve children
        let (c2, r2) ← read_one_curve r1
        let (c3, _) ← read_one_curve r2
        .ok (.Curve3 c1 c2 c3)
      else if children.length = 128 then do
        let (c1, r1) ← read_one_curve children
        let (c2, r2) ← read_one_curve r1
        let (c3, r3) ← read_one_curve r2
        let (c4, _) ← read_one_curve r3
        .ok (.Curve4 c1 c2 c3 c4)
      else .error (.InvalidData "Invalid curve: wrong number of values")
    else if tagS = "!buffer_int" then
      (read_buf parseNumI32E children).map .BufferInt
    else if tagS = "!buffer_f32" then
      (read_buf parseNumF32E children).map .BufferF32
    else if tagS = "!buffer_u32" then
      (read_buf parseNumU32E children).map .BufferU32
    else if tagS = "!buffer_binary" then
      (read_buf parseNumU8E children).map .BufferBinary
    else .error (.InvalidData "Invalid parameter: sequence without known tag")
  | .map _ _ _ _ => .error (.External "ryml: node has no scalar value")
  | .scalar _ _ tag quoted val =>
    let tagS := tag.getD ""
    match parse_scalar ((recognize_tag tagS).or (get_tag_based_type tagS))
        val quoted with
    | .ok sc => scalar_to_value tagS sc
    | .error e => .error e

/-- From the key handling of the `read_map!` macro: the quoting check
reads `is_key_quoted` of the enclosing map node itself (not of the
child), so `mapKeyDquo` is the map's own key-quoting flag; an
unsigned-integer key under an unquoted map key is its numeric value
wrapped to 32 bits, anything else is hashed. -/
def read_map_key_hash (key : String) (mapKeyDquo : Bool) : Nat :=
  if mapKeyDquo then hash_name key
  else
    match parseDecU64 key with
    | some v => v % 2 ^ 32
    | none => hash_name key

/-- The `read_map!` loop specialized to `parse_parameter` (the body of
`read_parameter_object`). -/
def readObjParamEntries (mapKeyDquo : Bool) :
    List YNode → Except Error (List (Nat × Parameter))
  | [] => .ok []
  | child :: rest => do
    let key ← child.keyE
    let value ← parse_parameter child
    let tl ← readObjParamEntries mapKeyDquo rest
    .ok ((read_map_key_hash key mapKeyDquo, value) :: tl)

/-- From `read_parameter_object`. -/
def read_parameter_object (node : YNode) : Except Error ParameterObject :=
  match node with
  | .map _ kdq _ children =>
    (readObjParamEntries kdq children).map ParameterObject.mk
  | _ => .error (.InvalidData "Expected map node")

/-- The `read_map!` loop specialized to `read_parameter_object` (the
objects half of `read_parameter_list`). -/
def readListObjEntries (mapKeyDquo : Bool) :
    List YNode → Except Error (List (Nat × ParameterObject))
  | [] => .ok []
  | child :: rest => do
    let key ← child.keyE
    let value ← read_parameter_object child
    let tl ← readListObjEntries mapKeyDquo rest
    .ok ((read_map_key_hash key mapKeyDquo, value) :: tl)

mutual
/-- From `read_parameter_list`: fetch the "lists" child, then the
"objects" child, read the objects map, then the lists map recursively.
The fuel argument only bounds the recursion depth so that the
definition is structural; `read_parameter_io` supplies the tree size,
which always suffices for a finite tree. -/
def read_parameter_list (fuel : Nat) (node : YNode) :
    Except Error ParameterList :=
  match fuel with
  | 0 => .error (.External "recursion fuel exhausted")
  | fuel + 1 =>
    match node.getChild "lists" with
    | .error e => .error e
    | .ok lists =>
      match node.getChild "objects" with
      | .error e => .error e
      | .ok objects =>
        match objects with
        | .map _ okdq _ ochildren =>
          match readListObjEntries okdq ochildren with
          | .error e => .error e
          | .ok objs =>
            match lists with
            | .map _ lkdq _ lchildren =>
              match readListListEntries fuel lkdq lchildren with
              | .error e => .error e
              | .ok lsts => .ok (.mk objs lsts)
            | _ => .error (.InvalidData "Expected map node")
        | _ => .error (.InvalidData "Expected map node")

/-- The `read_map!` loop specialized to `read_parameter_list` (the lists
half of `read_parameter_list`). -/
def readListListEntries (fuel : Nat) (mapKeyDquo : Bool)
    (children : List YNode) : Except Error (List (Nat × ParameterList)) :=
  match fuel with
  | 0 => .error (.External "recursion fuel exhausted")
  | fuel + 1 =>
    match children with
    | [] => .ok []
    | child :: rest =>
      match child.keyE with
      | .error e => .error e
      | .ok key =>
        match read_parameter_list fuel child with
        | .error e => .error e
        | .ok value =>
          match readListListEntries fuel mapKeyDquo rest with
          | .error e => .error e
          | .ok tl => .ok ((read_map_key_hash key mapKeyDquo, value) :: tl)
end

/-- From `read_parameter_io`: the version scalar, the type scalar and
the "param_root" list. -/
def read_parameter_io (node : YNode) : Except Error ParameterIO := do
  let ver ← node.getChild "version"
  let v ← parseNumU32E (← ver.valE)
  let dt ← node.getChild "type"
  let s ← dt.valE
  let pr ← node.getChild "param_root"
  let root ← read_parameter_list (ySize pr) pr
  .ok ⟨v, s, root⟩

/-- A sequence child holding the decimal text of a number, as produced
by the external parser for a plain numeric scalar. -/
def mkDecScalar (n : Nat) : YNode := .scalar none false none false (decStr n)

/-- Per the spec: one curve occupies 32 numeric slots, "the two leading
fields then 30 floats, in order". -/
def specCurveChunk (l : List Nat) : Curve :=
  { a := l.headD 0
    b := (l.drop 1).headD 0
    floats := ((l.drop 2).take 30).map decStr }

/-! ## NameTable lemmas -/

theorem test_names_eq (hash index : Nat) (pre : String) :
    test_names hash index pre =
      (childFormats pre index).find? fun c => hash_name c == hash := by
  have h1 : List.range' index 1 = [index] := rfl
  simp [test_names, h1]

theorem lookup_append (l1 l2 : List (Nat × String)) (k : Nat) :
    (l1 ++ l2).lookup k = ((l1.lookup k).or (l2.lookup k)) := by
  induction l1 with
  | nil => simp [List.lookup]
  | cons a l ih =>
    cases h : (k == a.1) <;> simp [List.lookup, h, ih]

theorem singularGuess_eq (hash index : Nat) (pn : String) :
    singularGuess hash index pn =
      ((["s", "es", "List"].filterMap fun suf =>
          if strEndsWith pn suf then some (strDropRight pn suf.length)
          else none
        ).flatMap fun stem => childFormats stem index).find?
        (fun c => hash_name c == hash) := by
  by_cases h1 : strEndsWith pn "s" <;> by_cases h2 : strEndsWith pn "es" <;>
    by_cases h3 : strEndsWith pn "List" <;>
      simp [singularGuess, singularGo, h1, h2, h3, test_names_eq,
        List.find?_append, Option.or_none]

theorem specPrefixCandidates_eq (pn : String) (index : Nat) :
    specPrefixCandidates pn index =
      childFormats pn index ++ (childFormats "Children" index ++
        (childFormats "Child" index ++
          ((["s", "es", "List"].filterMap fun suf =>
              if strEndsWith pn suf then some (strDropRight pn suf.length)
              else none
            ).flatMap fun stem => childFormats stem index))) := by
  simp [specPrefixCandidates, childFormats]

theorem prefixGuess_eq (hash index : Nat) (pn : String) :
    prefixGuess hash index pn =
      (specPrefixCandidates pn index).find? fun c => hash_name c == hash := by
  unfold prefixGuess
  rw [specPrefixCandidates_eq]
  simp only [List.find?_append, test_names_eq, singularGuess_eq]

theorem numberedGuess_eq (templates : List String) (hash index : Nat) :
    numberedGuess templates hash index =
      (specNumberedCandidates templates index).find?
        (fun c => hash_name c == hash) := by
  induction templates with
  | nil => simp [numberedGuess, specNumberedCandidates]
  | cons f rest ih =>
    simp only [numberedGuess, specNumberedCandidates, List.flatMap_cons,
      List.find?_append]
    rw [ih]
    rfl

theorem lookup_insertIfAbsent_of_some (l : List (Nat × String)) (k h2 : Nat)
    (n m : String) (hs : l.lookup k = some n) :
    (insertIfAbsent l h2 m).lookup k = some n := by
  unfold insertIfAbsent
  split
  · exact hs
  · rw [lookup_append, hs]; rfl

/-- Structural case analysis of `get_name`: either a cache hit returning
the table unchanged, or a cache miss that returns `none` and leaves the
table unchanged, or a cache miss whose successful guess is appended
under `hash`. -/
theorem get_name_cases (t : NameTable) (hash index parent_hash : Nat) :
    ((t.names.lookup hash).isSome ∧
      t.get_name hash index parent_hash = (t.names.lookup hash, t)) ∨
    (t.names.lookup hash = none ∧
      (t.get_name hash index parent_hash = (none, t) ∨
        ∃ nm, t.get_name hash index parent_hash =
          (some nm, { t with names := t.names ++ [(hash, nm)] }))) := by
  unfold NameTable.get_name
  cases h1 : t.names.lookup hash with
  | some n => exact Or.inl (by simp [h1])
  | none =>
    refine Or.inr ⟨rfl, ?_⟩
    cases h2 : (match t.names.lookup parent_hash with
      | none => none
      | some pn => prefixGuess hash index pn) with
    | some n => exact Or.inr ⟨n, by simp [h1, h2]⟩
    | none =>
      cases h3 : numberedGuess t.numbered_names hash index with
      | some n => exact Or.inr ⟨n, by simp [h1, h2, h3]⟩
      | none => exact Or.inl (by simp [h1, h2, h3])

/-- C3: with `hash` uncached and the parent name cached, the guess is
the first candidate, in the spec's exact prefix and pattern order with
the single index value `index`, whose hash equals the target; it is
cached under `hash` and returned. -/
theorem get_name_parent_prefix_guess (t : NameTable)
    (hash index parent_hash : Nat) (pn c : String)
    (hmiss : t.names.lookup hash = none)
    (hparent : t.names.lookup parent_hash = some pn)
    (hfound : (specPrefixCandidates pn index).find?
      (fun s => hash_name s == hash) = some c) :
    t.get_name hash index parent_hash =
      (some c, { t with names := t.names ++ [(hash, c)] }) := by
  unfold NameTable.get_name
  rw [hmiss, hparent]
  rw [show (match some pn with
    | none => none
    | some pn => prefixGuess hash index pn) = prefixGuess hash index pn from
    rfl]
  rw [prefixGuess_eq, hfound]

/-- C4: with `hash` uncached and no parent-prefixed guess available
(either because the parent has no cached name or because no prefix
candidate matches), the numbered-name templates are tried with index
values 0 up to and including `index + 1`, the first hash match is cached
and returned, and otherwise the lookup returns no name with the table
unchanged. -/
theorem get_name_numbered_fallback (t : NameTable)
    (hash index parent_hash : Nat)
    (hmiss : t.names.lookup hash = none)
    (hnoguess : ∀ pn, t.names.lookup parent_hash = some pn →
      (specPrefixCandidates pn index).find? (fun s => hash_name s == hash) =
        none) :
    t.get_name hash index parent_hash =
      (match (specNumberedCandidates t.numbered_names index).find?
          (fun s => hash_name s == hash) with
       | some n => (some n, { t with names := t.names ++ [(hash, n)] })
       | none => (none, t)) := by
  unfold NameTable.get_name
  rw [hmiss]
  have hpref : (match t.names.lookup parent_hash with
      | none => none
      | some pn => prefixGuess hash index pn) = none := by
    cases hp : t.names.lookup parent_hash with
    | none => rfl
    | some pn =>
      simpa [prefixGuess_eq] using hnoguess pn hp
  rw [hpref, numberedGuess_eq]

/-- C7: the hash-to-name mapping only grows: none of `add_name`,
`add_name_with_hash`, `add_name_str` or a caching `get_name` removes or
overwrites an existing entry, so an already-stored name for a hash is
returned unchanged by lookups after any of these operations. -/
theorem nametable_names_monotone (t : NameTable) (h : Nat) (n s : String)
    (h2 hash index parent_hash : Nat)
    (hcached : t.names.lookup h = some n) :
    (t.add_name s).names.lookup h = some n ∧
    (t.add_name_with_hash s h2).names.lookup h = some n ∧
    (t.add_name_str s).names.lookup h = some n ∧
    ((t.get_name hash index parent_hash).2).names.lookup h = some n := by
  refine ⟨lookup_insertIfAbsent_of_some _ _ _ _ _ hcached,
    lookup_insertIfAbsent_of_some _ _ _ _ _ hcached,
    lookup_insertIfAbsent_of_some _ _ _ _ _ hcached, ?_⟩
  rcases get_name_cases t hash index parent_hash with ⟨_, heq⟩ |
    ⟨_, heq | ⟨nm, heq⟩⟩ <;> rw [heq] <;>
    simp [lookup_append, hcached]

/-- C8: for a fixed table state, `get_name` is a pure function of its
arguments, and it is idempotent: once a first call has returned a name
(updating the table to `t'`), the same call on `t'` is a cache hit
returning the same name and leaving `t'` unchanged. -/
theorem get_name_idempotent (t t' : NameTable)
    (hash index parent_hash : Nat) (n : String)
    (hfirst : t.get_name hash index parent_hash = (some n, t')) :
    t'.get_name hash index parent_hash = (some n, t') := by
  have hcache : t'.names.lookup hash = some n := by
    rcases get_name_cases t hash index parent_hash with ⟨_, heq⟩ |
      ⟨hnone, heq | ⟨nm, heq⟩⟩
    · rw [hfirst] at heq
      obtain ⟨h1, h2⟩ := Prod.mk.injEq .. ▸ heq
      rw [h2]
      exact h1.symm
    · rw [hfirst] at heq
      exact absurd (congrArg Prod.fst heq) (by simp)
    · rw [hfirst] at heq
      obtain ⟨h1, h2⟩ := Prod.mk.injEq .. ▸ heq
      have hnm : nm = n := by injection h1.symm
      rw [h2]
      simp [lookup_append, hnone, List.lookup, hnm]
  unfold NameTable.get_name
  rw [hcache]

set_option maxRecDepth 100000 in
/-- Witness for C3: a table caching only "AI" under its hash recovers
"AI_35" for the hash 2157271501 at index 35 with parent 2814088591 (the
repository's own test vector) and caches the guess. -/
theorem get_name_parent_prefix_guess_witness :
    NameTable.get_name ⟨[(2814088591, "AI")], []⟩ 2157271501 35 2814088591 =
      (some "AI_35",
        ⟨[(2814088591, "AI"), (2157271501, "AI_35")], []⟩) :=
  get_name_parent_prefix_guess ⟨[(2814088591, "AI")], []⟩ 2157271501 35
    2814088591 "AI" "AI_35" (by decide) (by decide) (by decide)

set_option maxRecDepth 100000 in
/-- Witness for C4: with an empty cache (so the parent has no cached
name and prefix guessing is skipped) and a single template "Test_%d",
index 0 tries "Test_0" then "Test_1" and accepts the latter. -/
theorem get_name_numbered_fallback_witness :
    NameTable.get_name ⟨[], ["Test_%d"]⟩ (hash_name "Test_1") 0 0 =
      (some "Test_1", ⟨[(hash_name "Test_1", "Test_1")], ["Test_%d"]⟩) :=
  get_name_numbered_fallback ⟨[], ["Test_%d"]⟩ (hash_name "Test_1") 0 0
    (by decide) (fun pn hp => by simp at hp)

/-- Witness for C7: an entry stored under hash 5 survives every mutating
operation, including an `add_name_with_hash` that tries to overwrite it. -/
theorem nametable_names_monotone_witness :
    ((NameTable.add_name ⟨[(5, "five")], []⟩ "other").names.lookup 5 =
        some "five") ∧
    ((NameTable.add_name_with_hash ⟨[(5, "five")], []⟩ "other" 5).names.lookup
        5 = some "five") ∧
    ((NameTable.add_name_str ⟨[(5, "five")], []⟩ "other").names.lookup 5 =
        some "five") ∧
    (((NameTable.get_name ⟨[(5, "five")], []⟩ 3 0 7).2).names.lookup 5 =
        some "five") :=
  nametable_names_monotone ⟨[(5, "five")], []⟩ 5 "five" "other" 5 3 0 7
    (by decide)

set_option maxRecDepth 100000 in
/-- Witness for C8: after a successful guess of "AI_0" is cached, the
identical call is a cache hit returning the same name and state. -/
theorem get_name_idempotent_witness :
    NameTable.get_name ⟨[(2814088591, "AI"), (hash_name "AI_0", "AI_0")], []⟩
        (hash_name "AI_0") 0 2814088591 =
      (some "AI_0",
        ⟨[(2814088591, "AI"), (hash_name "AI_0", "AI_0")], []⟩) :=
  get_name_idempotent ⟨[(2814088591, "AI")], []⟩
    ⟨[(2814088591, "AI"), (hash_name "AI_0", "AI_0")], []⟩
    (hash_name "AI_0") 0 2814088591 "AI_0" (by decide)

/-! ## Claim theorems: the text codec -/

/-- C1: the round trip `from_text (to_text V) = V` fails.  With the
default table knowing the name "AI" (hash 2814088591), encoding a
`ParameterIO` whose root holds one child list under that hash never sets
the child's key (`write_parameter_list` sets only the key-quoting flag
in its named branch), so decoding the emitted document stops with an
error instead of returning `V`. -/
theorem text_roundtrip_fails_on_named_list_key :
    read_parameter_io
        (write_parameter_io
          ⟨3, "xml", .mk [] [(2814088591, .mk [] [])]⟩
          ⟨[(2814088591, "AI")], []⟩).1 =
      .error (.External "ryml: node has no key") := by
  rfl

/-- C2: inside `write_parameter_object` a recovered name is set as the
key (double-quoted exactly when it parses as a `u64`), and an
unrecovered key becomes the unquoted decimal hash; but inside
`write_parameter_list` the named branch never sets the key at all, so
the first object child below has key "AI" while the structurally
identical list-level child has no key. -/
theorem object_keys_named_but_list_keys_lost :
    ((write_parameter_object ⟨[(2814088591, .Bool true)]⟩ 0
        ⟨[(2814088591, "AI")], []⟩).1 =
      .map none false (some "!obj")
        [.scalar (some "AI") false none false "true"]) ∧
    ((write_parameter_object ⟨[(hash_name "123", .Bool true)]⟩ 0
        ⟨[(hash_name "123", "123")], []⟩).1 =
      .map none false (some "!obj")
        [.scalar (some "123") true none false "true"]) ∧
    ((write_parameter_object ⟨[(2814088591, .Bool true)]⟩ 0 ⟨[], []⟩).1 =
      .map none false (some "!obj")
        [.scalar (some "2814088591") false none false "true"]) ∧
    ((write_parameter_list (.mk [(2814088591, ⟨[]⟩)] []) 0
        ⟨[(2814088591, "AI")], []⟩).1 =
      .map none false (some "!list")
        [.map (some "objects") false none [.map none false (some "!obj") []],
         .map (some "lists") false none []]) := by
  exact ⟨rfl, rfl, rfl, rfl⟩

set_option maxRecDepth 1000000 in
/-- C10: the encoder's output is not a function of the `ParameterIO`
alone: the same value encodes to different trees before and after the
shared table learns the name "AI", and encoding itself can extend the
table (a successful prefix guess is cached). -/
theorem to_text_depends_on_shared_table :
    ((write_parameter_io ⟨0, "t", .mk [] [(2814088591, .mk [] [])]⟩
        ⟨[], []⟩).1 ≠
      (write_parameter_io ⟨0, "t", .mk [] [(2814088591, .mk [] [])]⟩
        (NameTable.add_name ⟨[], []⟩ "AI")).1) ∧
    ((write_parameter_io ⟨0, "t", .mk [(hash_name "param_root0", ⟨[]⟩)] []⟩
        ⟨[(ROOT_KEY, "param_root")], []⟩).2 ≠
      ⟨[(ROOT_KEY, "param_root")], []⟩) := by
  constructor
  · intro h
    exact Bool.noConfusion
      (congrArg
        (fun y =>
          match read_parameter_io y with
          | .ok _ => true
          | .error _ => false) h)
  · intro h
    exact absurd (congrArg (fun t => t.names.length) h) (by decide)

/-! ## Number formatting and parsing lemmas -/

theorem charVal_digitChar : ∀ d, d < 16 → charVal (digitChar d) = some d := by
  decide

theorem digitChar_isDigit : ∀ d, d < 10 → (digitChar d).isDigit = true := by
  decide

theorem parseBaseGo_append (b acc : Nat) (l1 l2 : List Char) :
    parseBaseGo b acc (l1 ++ l2) =
      match parseBaseGo b acc l1 with
      | some a => parseBaseGo b a l2
      | none => none := by
  induction l1 generalizing acc with
  | nil => simp [parseBaseGo]
  | cons c cs ih =>
    simp only [List.cons_append, parseBaseGo]
    cases digitValB b c with
    | some d => exact ih _
    | none => rfl

theorem parse_repAuxGo (b2 : Nat) (hb : b2 + 2 ≤ 16) :
    ∀ fuel n acc, n ≤ fuel →
      parseBaseGo (b2 + 2) acc (repAuxGo b2 fuel n) =
        some (acc * (b2 + 2) ^ (repAuxGo b2 fuel n).length + n) := by
  intro fuel
  induction fuel with
  | zero =>
    intro n acc hn
    have hn0 : n = 0 := by omega
    subst hn0
    simp [repAuxGo, parseBaseGo, digitValB, charVal_digitChar 0 (by omega)]
  | succ fuel ih =>
    intro n acc hn
    by_cases h : n < b2 + 2
    · simp [repAuxGo, h, parseBaseGo, digitValB, charVal_digitChar n (by omega)]
    · have hdiv : n / (b2 + 2) ≤ fuel := by
        have : n / (b2 + 2) < n := Nat.div_lt_self (by omega) (by omega)
        omega
      rw [repAuxGo, if_neg h, parseBaseGo_append, ih (n / (b2 + 2)) acc hdiv]
      have hmod : n % (b2 + 2) < 16 := by
        have := Nat.mod_lt n (y := b2 + 2) (by omega)
        omega
      have hmlt : n % (b2 + 2) < b2 + 2 := Nat.mod_lt n (by omega)
      simp only [parseBaseGo, digitValB, charVal_digitChar (n % (b2 + 2)) hmod,
        Option.some_bind, if_pos hmlt, List.length_append, List.length_cons,
        List.length_nil]
      congr 1
      have hdm := Nat.div_add_mod n (b2 + 2)
      set k := (repAuxGo b2 fuel (n / (b2 + 2))).length
      calc (acc * (b2 + 2) ^ k + n / (b2 + 2)) * (b2 + 2) + n % (b2 + 2)
          = acc * ((b2 + 2) ^ k * (b2 + 2)) +
              (n / (b2 + 2) * (b2 + 2) + n % (b2 + 2)) := by ring
        _ = acc * ((b2 + 2) ^ k * (b2 + 2)) + n := by
            congr 1
            rw [Nat.mul_comm (n / (b2 + 2)) (b2 + 2)]
            exact Nat.div_add_mod n (b2 + 2)
        _ = acc * (b2 + 2) ^ (k + 1) + n := by rw [pow_succ]

theorem repAuxGo_ne_nil (b2 fuel n : Nat) : repAuxGo b2 fuel n ≠ [] := by
  cases fuel with
  | zero => simp [repAuxGo]
  | succ fuel =>
    by_cases h : n < b2 + 2 <;> simp [repAuxGo, h]

theorem parseBaseNat_repAux (b2 : Nat) (hb : b2 + 2 ≤ 16) (n : Nat) :
    parseBaseNat (b2 + 2) (repAux b2 n) = some n := by
  have hp := parse_repAuxGo b2 hb n n 0 (Nat.le_refl n)
  unfold repAux at hp ⊢
  cases h : repAuxGo b2 n n with
  | nil => exact absurd h (repAuxGo_ne_nil b2 n n)
  | cons c cs =>
    rw [h] at hp
    simpa [parseBaseNat] using hp

theorem parse10_rep10 (n : Nat) : parseBaseNat 10 (rep10 n) = some n :=
  parseBaseNat_repAux 8 (by omega) n

theorem parse16_rep16 (n : Nat) : parseBaseNat 16 (rep16 n) = some n :=
  parseBaseNat_repAux 14 (by omega) n

theorem repAuxGo_digits (fuel : Nat) :
    ∀ n, n ≤ fuel → ∀ c ∈ repAuxGo 8 fuel n, c.isDigit = true := by
  induction fuel with
  | zero =>
    intro n hn c hc
    have hn0 : n = 0 := by omega
    subst hn0
    simp [repAuxGo] at hc
    subst hc
    decide
  | succ fuel ih =>
    intro n hn c hc
    by_cases h : n < 10
    · simp [repAuxGo, h] at hc
      subst hc
      exact digitChar_isDigit n h
    · rw [repAuxGo, if_neg h] at hc
      rcases List.mem_append.mp hc with hc1 | hc2
      · have hdiv : n / 10 ≤ fuel := by
          have : n / 10 < n := Nat.div_lt_self (by omega) (by omega)
          omega
        exact ih (n / 10) hdiv c hc1
      · simp at hc2
        subst hc2
        exact digitChar_isDigit (n % 10) (Nat.mod_lt n (by omega))

theorem repAuxGo16_charVal (fuel : Nat) :
    ∀ n, n ≤ fuel → ∀ c ∈ repAuxGo 14 fuel n, (charVal c).isSome = true := by
  induction fuel with
  | zero =>
    intro n hn c hc
    have hn0 : n = 0 := by omega
    subst hn0
    simp [repAuxGo] at hc
    subst hc
    decide
  | succ fuel ih =>
    intro n hn c hc
    by_cases h : n < 16
    · simp [repAuxGo, h] at hc
      subst hc
      rw [charVal_digitChar n h]
      rfl
    · rw [repAuxGo, if_neg h] at hc
      rcases List.mem_append.mp hc with hc1 | hc2
      · have hdiv : n / 16 ≤ fuel := by
          have : n / 16 < n := Nat.div_lt_self (by omega) (by omega)
          omega
        exact ih (n / 16) hdiv c hc1
      · simp at hc2
        subst hc2
        rw [charVal_digitChar (n % 16) (Nat.mod_lt n (by omega))]
        rfl

theorem rep10_head_digit (n : Nat) :
    ∃ c cs, rep10 n = c :: cs ∧ c.isDigit = true := by
  cases h : rep10 n with
  | nil => exact absurd h (repAuxGo_ne_nil 8 n n)
  | cons c cs =>
    refine ⟨c, cs, rfl, ?_⟩
    have hm : c ∈ repAuxGo 8 n n := by
      rw [show repAuxGo 8 n n = c :: cs from h]
      exact List.mem_cons_self c cs
    exact repAuxGo_digits n n (Nat.le_refl n) c hm

theorem rep16_head_ne_minus (n : Nat) : (rep16 n).head? ≠ some '-' := by
  cases h : rep16 n with
  | nil => simp
  | cons c cs =>
    have hm : c ∈ repAuxGo 14 n n := by
      rw [show repAuxGo 14 n n = c :: cs from h]
      exact List.mem_cons_self c cs
    have hs : (charVal c).isSome = true :=
      repAuxGo16_charVal n n (Nat.le_refl n) c hm
    simp only [List.head?_cons, ne_eq, Option.some.injEq]
    intro he
    subst he
    simp [charVal] at hs

theorem rep10_head_ne_minus (n : Nat) : (rep10 n).head? ≠ some '-' := by
  obtain ⟨c, cs, h, hd⟩ := rep10_head_digit n
  rw [h]
  simp only [List.head?_cons, ne_eq, Option.some.injEq]
  intro he
  subst he
  simp [Char.isDigit] at hd

theorem splitOnGo_all_digits (l : List Char) :
    ∀ fuel acc, (∀ c ∈ l, c.isDigit = true) → l.length ≤ fuel →
      splitOnGo ['.'] fuel acc l = [acc.reverse ++ l] := by
  induction l with
  | nil =>
    intro fuel acc _ _
    cases fuel <;> simp [splitOnGo]
  | cons c cs ih =>
    intro fuel acc hdig hlen
    cases fuel with
    | zero => simp at hlen
    | succ fuel =>
      have hc : c.isDigit = true := hdig c (List.mem_cons_self c cs)
      have hnedot : ('.' == c) = false := by
        rw [beq_eq_false_iff_ne]
        intro he
        rw [← he] at hc
        exact absurd hc (by decide)
      have hne : (['.'].isPrefixOf (c :: cs)) = false := by
        simp [List.isPrefixOf, hnedot]
      simp only [splitOnGo, hne, Bool.false_eq_true, if_false]
      rw [ih fuel (c :: acc) (fun x hx => hdig x (List.mem_cons_of_mem c hx))
        (by simpa using hlen)]
      simp

theorem numericShape_rep10 (n : Nat) : numericShape (rep10 n) = true := by
  obtain ⟨c, cs, h, hd⟩ := rep10_head_digit n
  have hdig : ∀ x ∈ rep10 n, x.isDigit = true := by
    intro x hx
    have hm : x ∈ repAuxGo 8 n n := by
      rw [show repAuxGo 8 n n = rep10 n from rfl]
      exact hx
    exact repAuxGo_digits n n (Nat.le_refl n) x hm
  have hcore : numericShapeCore (rep10 n) = true := by
    unfold numericShapeCore
    rw [show splitOnL ['.'] (rep10 n) = [rep10 n] from ?_]
    · simp only [digitsShape, Bool.and_eq_true, List.all_eq_true]
      constructor
      · rw [h]; rfl
      · exact hdig
    · unfold splitOnL
      rw [if_neg (by simp)]
      rw [splitOnGo_all_digits (rep10 n) (rep10 n).length [] hdig
        (Nat.le_refl _)]
      simp
  rw [h] at hcore ⊢
  show (if c = '-' then numericShapeCore cs else numericShapeCore (c :: cs)) =
    true
  rw [if_neg ?_]
  · exact hcore
  · intro he
    rw [he] at hd
    exact absurd hd (by decide)

theorem decStr_ne_of_head (v : Nat) (s : String) (c0 : Char)
    (hh : s.data.head? = some c0) (hc0 : c0.isDigit = false) :
    decStr v ≠ s := by
  obtain ⟨c, cs, hrep, hdig⟩ := rep10_head_digit v
  intro he
  have hd := congrArg (fun t => t.data.head?) he
  simp only at hd
  rw [hh, show (decStr v).data = rep10 v from rfl, hrep] at hd
  simp only [List.head?_cons, Option.some.injEq] at hd
  rw [hd] at hdig
  rw [hdig] at hc0
  exact Bool.noConfusion hc0

theorem decStr_ne_empty (v : Nat) : decStr v ≠ "" := by
  obtain ⟨c, cs, hrep, _⟩ := rep10_head_digit v
  intro he
  have hd := congrArg String.data he
  rw [show (decStr v).data = rep10 v from rfl, hrep] at hd
  exact List.noConfusion hd

theorem decStr_not_keyword (v : Nat) :
    (decStr v == "true") = false ∧ (decStr v == "false") = false ∧
    (decStr v == "null") = false ∧ (decStr v == "~") = false ∧
    (decStr v == "") = false := by
  refine ⟨?_, ?_, ?_, ?_, ?_⟩
  · exact beq_eq_false_iff_ne.mpr (decStr_ne_of_head v _ 't' rfl (by decide))
  · exact beq_eq_false_iff_ne.mpr (decStr_ne_of_head v _ 'f' rfl (by decide))
  · exact beq_eq_false_iff_ne.mpr (decStr_ne_of_head v _ 'n' rfl (by decide))
  · exact beq_eq_false_iff_ne.mpr (decStr_ne_of_head v _ '~' rfl (by decide))
  · exact beq_eq_false_iff_ne.mpr (decStr_ne_empty v)

theorem wrapU32_ofNat (v : Nat) : wrapU32 (v : Int) = v % 2 ^ 32 := by
  unfold wrapU32
  omega

/-- C6: every 32-bit value, including those at or above `2^31`, is
written as a `0x` hexadecimal literal tagged `!u` (never decimal), and
decoding that tagged literal recovers exactly the same value: the
decimal parse attempt fails on the `0x` marker, the hexadecimal parse
recovers the value, and the `!u` tag routes it through the unsigned
wrap, which is the identity below `2^32`. -/
theorem u32_hex_roundtrip (x : Nat) (hx : x < 2 ^ 32) :
    write_parameter (.U32 x) =
      .scalar none false (some "!u") false (hexStr x) ∧
    parse_parameter (.scalar none false (some "!u") false (hexStr x)) =
      .ok (.U32 x) := by
  refine ⟨rfl, ?_⟩
  have hdec : parseI64dec (hexStr x) = none := rfl
  have hhex : parseI64hex (strip0xOnce (hexStr x).data) = some (x : Int) := by
    rw [show strip0xOnce (hexStr x).data = rep16 x from rfl]
    unfold parseI64hex
    rw [if_neg (rep16_head_ne_minus x)]
    rw [parse16_rep16]
    simp only [Option.some_bind]
    rw [if_pos (by omega)]
  have hint : parseIntDecThenHex (hexStr x) = some (x : Int) := by
    unfold parseIntDecThenHex
    rw [hdec, hhex]
    rfl
  have hps : parse_scalar ((recognize_tag "!u").or (get_tag_based_type "!u"))
      (hexStr x) false = .ok (.Int (x : Int)) := by
    rw [show (recognize_tag "!u").or (get_tag_based_type "!u") =
      some TagBasedType.Int from rfl]
    unfold parse_scalar
    rw [hint]
  have hred : parse_parameter (.scalar none false (some "!u") false (hexStr x))
      = scalar_to_value "!u" (.Int (x : Int)) := by
    simp only [parse_parameter, Option.getD_some]
    rw [hps]
  rw [hred]
  show Except.ok (Parameter.U32 (wrapU32 (x : Int))) =
    Except.ok (Parameter.U32 x)
  rw [wrapU32_ofNat, Nat.mod_eq_of_lt hx]

/-- Witness for C6 at `x = 2^31`, above the `i32` range. -/
theorem u32_hex_roundtrip_witness :
    (2147483648 : Nat) < 2 ^ 32 ∧
    (write_parameter (.U32 2147483648) =
        .scalar none false (some "!u") false (hexStr 2147483648) ∧
      parse_parameter
          (.scalar none false (some "!u") false (hexStr 2147483648)) =
        .ok (.U32 2147483648)) :=
  ⟨by decide, u32_hex_roundtrip 2147483648 (by decide)⟩

/-- C9: integer literals out of 32-bit range are never rejected: an
integer scalar parses at 64-bit width and wraps (`as i32` untagged,
`as u32` under `!u`), and an unquoted map key parsing as an unsigned
integer is taken modulo `2^32` as the name hash. -/
theorem integer_decode_wraps (v : Nat) :
    (v < 2 ^ 63 →
      parse_parameter (.scalar none false none false (decStr v)) =
        .ok (.Int (wrapI32 (v : Int))) ∧
      parse_parameter (.scalar none false (some "!u") false (decStr v)) =
        .ok (.U32 (v % 2 ^ 32))) ∧
    (v < 2 ^ 64 → read_map_key_hash (decStr v) false = v % 2 ^ 32) := by
  constructor
  · intro hv
    have hdecp : parseI64dec (decStr v) = some (v : Int) := by
      unfold parseI64dec
      rw [if_neg (by
        rw [show (decStr v).data = rep10 v from rfl]
        exact rep10_head_ne_minus v)]
      rw [show (decStr v).data = rep10 v from rfl, parse10_rep10]
      simp only [Option.some_bind]
      rw [if_pos hv]
    have hint : parseIntDecThenHex (decStr v) = some (v : Int) := by
      unfold parseIntDecThenHex
      rw [hdecp]
      rfl
    have hps : parse_scalar none (decStr v) false = .ok (.Int (v : Int)) := by
      obtain ⟨h1, h2, h3, h4, h5⟩ := decStr_not_keyword v
      simp only [parse_scalar, h1, h2, h3, h4, h5, hint, Bool.false_eq_true,
        or_self, if_false]
    constructor
    · have hor : (recognize_tag "").or (get_tag_based_type "") = none := rfl
      simp only [parse_parameter, Option.getD_none]
      rw [hor, hps]
      rfl
    · have hps2 : parse_scalar (some .Int) (decStr v) false =
          .ok (.Int (v : Int)) := by
        unfold parse_scalar
        rw [hint]
      have hor2 : (recognize_tag "!u").or (get_tag_based_type "!u") =
          some TagBasedType.Int := rfl
      simp only [parse_parameter, Option.getD_some]
      rw [hor2, hps2]
      show Except.ok (Parameter.U32 (wrapU32 (v : Int))) =
        Except.ok (Parameter.U32 (v % 2 ^ 32))
      rw [wrapU32_ofNat]
  · intro hv
    unfold read_map_key_hash
    rw [if_neg (by simp)]
    rw [show parseDecU64 (decStr v) = decNatIn (rep10 v) (2 ^ 64) from rfl]
    unfold decNatIn
    rw [parse10_rep10]
    simp only [Option.some_bind]
    rw [if_pos hv]

/-- Witness for C9 at `v = 2^32 + 5`: the untagged scalar wraps to
`Int 5`, the `!u`-tagged scalar to `U32 5`, and the unquoted key to hash
5. -/
theorem integer_decode_wraps_witness :
    (4294967301 : Nat) < 2 ^ 63 ∧
    parse_parameter (.scalar none false none false (decStr 4294967301)) =
      .ok (.Int (wrapI32 (4294967301 : Int))) ∧
    parse_parameter
        (.scalar none false (some "!u") false (decStr 4294967301)) =
      .ok (.U32 (4294967301 % 2 ^ 32)) ∧
    read_map_key_hash (decStr 4294967301) false = 4294967301 % 2 ^ 32 :=
  ⟨by decide, ((integer_decode_wraps 4294967301).1 (by decide)).1,
    ((integer_decode_wraps 4294967301).1 (by decide)).2,
    (integer_decode_wraps 4294967301).2 (by decide)⟩

/-! ## Curve decoding lemmas (C5) -/

theorem bindOk {α β : Type} (a : α) (f : α → Except Error β) :
    (Except.ok a : Except Error α) >>= f = f a := rfl

theorem parseNumU32E_decStr (n : Nat) (hn : n < 2 ^ 32) :
    parseNumU32E (decStr n) = .ok n := by
  have hd : decNatIn (decStr n).data (2 ^ 32) = some n := by
    rw [show (decStr n).data = rep10 n from rfl]
    unfold decNatIn
    rw [parse10_rep10]
    simp only [Option.some_bind]
    rw [if_pos hn]
  unfold parseNumU32E
  rw [hd]

theorem parseNumF32E_decStr (n : Nat) :
    parseNumF32E (decStr n) = .ok (decStr n) := by
  unfold parseNumF32E
  rw [show (decStr n).data = rep10 n from rfl]
  rw [if_pos (numericShape_rep10 n)]

theorem readCurveFloats_map (k : Nat) :
    ∀ (ms : List Nat) (rest : List YNode), ms.length = k →
      readCurveFloats k (ms.map mkDecScalar ++ rest) =
        .ok (ms.map decStr, rest) := by
  induction k with
  | zero =>
    intro ms rest hlen
    rw [List.length_eq_zero] at hlen
    subst hlen
    simp [readCurveFloats]
  | succ k ih =>
    intro ms rest hlen
    cases ms with
    | nil => simp at hlen
    | cons m ms' =>
      simp only [List.map_cons, List.cons_append, readCurveFloats]
      rw [show nextNode (mkDecScalar m :: (List.map mkDecScalar ms' ++ rest))
        "YAML curve missing a float" =
        Except.ok (mkDecScalar m, List.map mkDecScalar ms' ++ rest) from rfl]
      rw [bindOk]
      rw [show (mkDecScalar m).valE = Except.ok (decStr m) from rfl]
      rw [bindOk, parseNumF32E_decStr m, bindOk]
      rw [ih ms' rest (by simpa using hlen), bindOk]

theorem read_one_curve_map (ns : List Nat) (rest : List YNode)
    (hlen : 32 ≤ ns.length) (hb : ∀ n ∈ ns, n < 2 ^ 32) :
    read_one_curve (ns.map mkDecScalar ++ rest) =
      .ok (specCurveChunk ns, (ns.drop 32).map mkDecScalar ++ rest) := by
  cases ns with
  | nil => simp at hlen
  | cons a ns1 =>
    cases ns1 with
    | nil => simp at hlen
    | cons b ns2 =>
      have ha : a < 2 ^ 32 := hb a (by simp)
      have hbb : b < 2 ^ 32 := hb b (by simp)
      have h30 : 30 ≤ ns2.length := by
        simp only [List.length_cons] at hlen
        omega
      simp only [List.map_cons, List.cons_append, read_one_curve]
      rw [show nextNode
        (mkDecScalar a :: (mkDecScalar b :: (List.map mkDecScalar ns2 ++ rest)))
        "YAML curve missing a" =
        Except.ok (mkDecScalar a,
          mkDecScalar b :: (List.map mkDecScalar ns2 ++ rest)) from rfl]
      rw [bindOk]
      rw [show (mkDecScalar a).valE = Except.ok (decStr a) from rfl]
      rw [bindOk, parseNumU32E_decStr a ha, bindOk]
      rw [show nextNode
        (mkDecScalar b :: (List.map mkDecScalar ns2 ++ rest))
        "YAML curve missing a" =
        Except.ok (mkDecScalar b, List.map mkDecScalar ns2 ++ rest) from rfl]
      rw [bindOk]
      rw [show (mkDecScalar b).valE = Except.ok (decStr b) from rfl]
      rw [bindOk, parseNumU32E_decStr b hbb, bindOk]
      have hsplit : List.map mkDecScalar ns2 ++ rest =
          (ns2.take 30).map mkDecScalar ++
            ((ns2.drop 30).map mkDecScalar ++ rest) := by
        rw [← List.append_assoc, ← List.map_append, List.take_append_drop]
      rw [hsplit,
        readCurveFloats_map 30 (ns2.take 30) _
          (by rw [List.length_take]; omega),
        bindOk]
      simp [specCurveChunk]

set_option maxRecDepth 100000 in
theorem parse_parameter_curve (children : List YNode) :
    parse_parameter (.seq none false (some "!curve") children) =
      (if children.length = 32 then do
        let (c1, _) ← read_one_curve children
        Except.ok (.Curve1 c1)
      else if children.length = 64 then do
        let (c1, r1) ← read_one_curve children
        let (c2, _) ← read_one_curve r1
        Except.ok (.Curve2 c1 c2)
      else if children.length = 96 then do
        let (c1, r1) ← read_one_curve children
        let (c2, r2) ← read_one_curve r1
        let (c3, _) ← read_one_curve r2
        Except.ok (.Curve3 c1 c2 c3)
      else if children.length = 128 then do
        let (c1, r1) ← read_one_curve children
        let (c2, r2) ← read_one_curve r1
        let (c3, r3) ← read_one_curve r2
        let (c4, _) ← read_one_curve r3
        Except.ok (.Curve4 c1 c2 c3 c4)
      else .error (.InvalidData "Invalid curve: wrong number of values")) :=
  rfl

/-- C5: a `!curve`-tagged sequence of exactly 32 / 64 / 96 / 128 numeric
children decodes to `Curve1` / `Curve2` / `Curve3` / `Curve4`, each
curve built from its two leading fields followed by its 30 floats in
order, and any other child count is the curve data error. -/
theorem curve_arity_inference (ns : List Nat) (hb : ∀ n ∈ ns, n < 2 ^ 32) :
    (ns.length = 32 →
      parse_parameter (.seq none false (some "!curve") (ns.map mkDecScalar)) =
        .ok (.Curve1 (specCurveChunk ns))) ∧
    (ns.length = 64 →
      parse_parameter (.seq none false (some "!curve") (ns.map mkDecScalar)) =
        .ok (.Curve2 (specCurveChunk ns) (specCurveChunk (ns.drop 32)))) ∧
    (ns.length = 96 →
      parse_parameter (.seq none false (some "!curve") (ns.map mkDecScalar)) =
        .ok (.Curve3 (specCurveChunk ns) (specCurveChunk (ns.drop 32))
          (specCurveChunk (ns.drop 64)))) ∧
    (ns.length = 128 →
      parse_parameter (.seq none false (some "!curve") (ns.map mkDecScalar)) =
        .ok (.Curve4 (specCurveChunk ns) (specCurveChunk (ns.drop 32))
          (specCurveChunk (ns.drop 64)) (specCurveChunk (ns.drop 96)))) ∧
    (ns.length ≠ 32 → ns.length ≠ 64 → ns.length ≠ 96 → ns.length ≠ 128 →
      parse_parameter (.seq none false (some "!curve") (ns.map mkDecScalar)) =
        .error (.InvalidData "Invalid curve: wrong number of values")) := by
  have hb32 : ∀ n ∈ ns.drop 32, n < 2 ^ 32 :=
    fun n hn => hb n (List.drop_subset 32 ns hn)
  have hb64 : ∀ n ∈ ns.drop 64, n < 2 ^ 32 :=
    fun n hn => hb n (List.drop_subset 64 ns hn)
  have hb96 : ∀ n ∈ ns.drop 96, n < 2 ^ 32 :=
    fun n hn => hb n (List.drop_subset 96 ns hn)
  have happ : ∀ (ms : List Nat), ms.map mkDecScalar =
      ms.map mkDecScalar ++ [] := fun ms => (List.append_nil _).symm
  have hdd : ∀ (m k : Nat), (ns.drop m).drop k = ns.drop (m + k) :=
    fun m k => List.drop_drop k m ns
  refine ⟨?_, ?_, ?_, ?_, ?_⟩
  · intro hlen
    rw [parse_parameter_curve]
    simp only [List.length_map]
    rw [if_pos hlen]
    rw [happ ns, read_one_curve_map ns [] (by omega) hb, bindOk]
  · intro hlen
    rw [parse_parameter_curve]
    simp only [List.length_map]
    rw [if_neg (by omega), if_pos hlen]
    rw [happ ns, read_one_curve_map ns [] (by omega) hb, bindOk]
    rw [read_one_curve_map (ns.drop 32) [] (by simp; omega) hb32, bindOk]
  · intro hlen
    rw [parse_parameter_curve]
    simp only [List.length_map]
    rw [if_neg (by omega), if_neg (by omega), if_pos hlen]
    rw [happ ns, read_one_curve_map ns [] (by omega) hb, bindOk]
    rw [read_one_curve_map (ns.drop 32) [] (by simp; omega) hb32, bindOk]
    rw [hdd 32 32]
    rw [read_one_curve_map (ns.drop 64) [] (by simp; omega) hb64, bindOk]
  · intro hlen
    rw [parse_parameter_curve]
    simp only [List.length_map]
    rw [if_neg (by omega), if_neg (by omega), if_neg (by omega), if_pos hlen]
    rw [happ ns, read_one_curve_map ns [] (by omega) hb, bindOk]
    rw [read_one_curve_map (ns.drop 32) [] (by simp; omega) hb32, bindOk]
    rw [hdd 32 32]
    rw [read_one_curve_map (ns.drop 64) [] (by simp; omega) hb64, bindOk]
    rw [hdd 64 32]
    rw [read_one_curve_map (ns.drop 96) [] (by simp; omega) hb96, bindOk]
  · intro h32 h64 h96 h128
    rw [parse_parameter_curve]
    simp only [List.length_map]
    rw [if_neg h32, if_neg h64, if_neg h96, if_neg h128]

/-- Witness for C5: 64 children all holding "1" decode to two curves;
50 such children are rejected. -/
theorem curve_arity_inference_witness :
    ((List.replicate 64 1).length = 64 ∧
      parse_parameter (.seq none false (some "!curve")
          ((List.replicate 64 1).map mkDecScalar)) =
        .ok (.Curve2 (specCurveChunk (List.replicate 64 1))
          (specCurveChunk ((List.replicate 64 1).drop 32)))) ∧
    ((List.replicate 50 1).length ≠ 32 ∧
      parse_parameter (.seq none false (some "!curve")
          ((List.replicate 50 1).map mkDecScalar)) =
        .error (.InvalidData "Invalid curve: wrong number of values")) :=
  ⟨⟨by decide,
    (curve_arity_inference (List.replicate 64 1) (by decide)).2.1 (by decide)⟩,
   ⟨by decide,
    ((curve_arity_inference (List.replicate 50 1) (by decide)).2.2.2.2
      (by decide) (by decide) (by decide) (by decide))⟩⟩
